import Mathlib

/- Verification development for the simux discrete-event simulation engine.
   Shallow embedding conventions: Python floats (simulation times) are modelled
   as rationals, Python ints as Lean Int, and Python Callables (event handlers,
   module successors) are defunctionalized to natural-number identifiers: a
   handler value stands for the process_event method of the module with that
   index, and the environment loop is parametrized by an interpretation
   function mapping handler identifiers to their behaviour. -/

namespace Simux

/-- Handlers (Python Callable values) are modelled as opaque identifiers. -/
abbrev Handler := Nat

/-- Entity attribute mapping (Python dict keyed by strings). -/
abbrev AttrMap := List (String × Int)

/-- Key membership test on an attribute mapping (Python: key in dict). -/
def attrHasKey (l : AttrMap) (k : String) : Bool :=
  l.any (fun p => p.1 == k)

/-- Attribute lookup (Python: dict subscript, first binding wins). -/
def attrLookup (l : AttrMap) (k : String) : Option Int :=
  (l.find? (fun p => p.1 == k)).map (fun p => p.2)

/-- Entity record from src/datatypes.py (fields entity_type, arrival_time,
entity_ind, attr). The entity_ind is drawn from a single per-class counter;
construction order is modelled by buildEntities below. -/
structure PEntity where
  entity_type : String
  arrival_time : ℚ
  entity_ind : Nat
  attr : AttrMap

/-- Modelled from the spec (section 3 BatchEntity): the BatchEntity subclass is
referenced by src/modules.py but the datatypes.py under src is a stale version
missing it. An SEntity is either a plain Entity or a BatchEntity carrying its
ordered list of constituents. -/
inductive SEntity where
  | plain (e : PEntity)
  | batch (e : PEntity) (batched_entities : List PEntity)

/-- Underlying entity record of a plain or batch entity. -/
def SEntity.base : SEntity → PEntity
  | SEntity.plain e => e
  | SEntity.batch e _ => e

/-- Entity index projection. -/
def SEntity.ind (s : SEntity) : Nat := s.base.entity_ind

/-- Entity type projection. -/
def SEntity.etype (s : SEntity) : String := s.base.entity_type

/-- Attribute map projection. -/
def SEntity.attr (s : SEntity) : AttrMap := s.base.attr

/-- Test for the BatchEntity case (Python isinstance check). -/
def SEntity.isBatch : SEntity → Bool
  | SEntity.plain _ => false
  | SEntity.batch _ _ => true

/-- Event payload values: numeric payloads (delay_time, wait_time) and the
batch_entities payload carrying queued entries. -/
inductive AttrVal where
  | num (q : ℚ)
  | entities (l : List (SEntity × ℚ))

/-- Event attr dictionary. -/
abbrev EventAttr := List (String × AttrVal)

/-- Lookup in an event attr dictionary. -/
def eventAttrLookup (l : EventAttr) (k : String) : Option AttrVal :=
  (l.find? (fun p => p.1 == k)).map (fun p => p.2)

/-- Event record from src/datatypes.py. The event_handler Callable is a
defunctionalized identifier. -/
structure Event where
  event_time : ℚ
  event_name : String
  event_message : String
  event_handler : Handler
  event_entity : SEntity
  attr : EventAttr

/-- One tuple of a Resource waiting queue:
(queue_entry_time, num_resources, entity_ind, entity, event_handler). -/
structure RQEntry where
  entry_time : ℚ
  demand : Int
  ind : Nat
  entity : SEntity
  handler : Handler

/-- Resource from src/datatypes.py. The availability counter starts at
capacity (post-init) and is mutated by seize and release. -/
structure Resource where
  name : String
  capacity : Int
  available : Int
  queue : List RQEntry
  availability_log : List (ℚ × Int)

/-- Resource construction (post-init sets available to capacity). -/
def Resource.init (name : String) (capacity : Int) : Resource :=
  { name := name, capacity := capacity, available := capacity,
    queue := [], availability_log := [] }

/-- Strict lexicographic order on waiting-queue tuples, the comparison heapq
uses on (queue_entry_time, num_resources, entity_ind, ...). -/
def rqLt (a b : RQEntry) : Bool :=
  decide (a.entry_time < b.entry_time) ||
    (a.entry_time == b.entry_time &&
      (decide (a.demand < b.demand) ||
        (a.demand == b.demand && decide (a.ind < b.ind))))

/-- Ordered insert modelling heapq.heappush on the resource queue: the list is
kept sorted so that index 0 is the heap minimum. -/
def rqInsert : List RQEntry → RQEntry → List RQEntry
  | [], a => [a]
  | b :: rest, a => if rqLt a b then a :: b :: rest else b :: rqInsert rest a

/-- Resource.queue_entity from src/datatypes.py: push
(queue_entry_time, num_resources, entity_ind, entity, handler). -/
def Resource.queue_entity (r : Resource) (entity : SEntity) (num_resources : Int)
    (queue_entry_time : ℚ) (event_handler : Handler) : Resource :=
  let entry : RQEntry := ⟨queue_entry_time, num_resources, entity.ind, entity, event_handler⟩
  { r with queue := rqInsert r.queue entry }

/-- Resource.seize from src/datatypes.py: error when the demand exceeds the
available count, otherwise decrement available and append a log sample. -/
def Resource.seize (r : Resource) (num_resources : Int) (seize_time : ℚ) :
    Except String Resource :=
  if r.available - num_resources < 0 then
    Except.error ("Unable to seize " ++ r.name ++ " resources in excess of available.")
  else
    let newAvail := r.available - num_resources
    Except.ok { r with available := newAvail, availability_log := r.availability_log ++ [(seize_time, newAvail)] }

/-- Resource.release from src/datatypes.py: error when releasing more than is
currently seized; otherwise increment available, log, and when the queue head
requires at most the new available count, call seize with the RELEASED amount
(source line 106 passes num_resources, not the head demand), pop the head and
return a synthesized Seize event carrying the queued handler and no payload. -/
def Resource.release (r : Resource) (num_resources : Int) (release_time : ℚ) :
    Except String (Resource × Option Event) :=
  if r.capacity - r.available < num_resources then
    Except.error ("Unable to release " ++ r.name ++ " resources in excess of capacity.")
  else
    let newAvail := r.available + num_resources
    let r1 : Resource :=
      { r with available := newAvail, availability_log := r.availability_log ++ [(release_time, newAvail)] }
    match r1.queue with
    | [] => Except.ok (r1, none)
    | entry :: rest =>
      if entry.demand ≤ r1.available then
        match Resource.seize r1 num_resources release_time with
        | Except.error e => Except.error e
        | Except.ok r2 =>
          let msg := entry.entity.etype ++ " " ++ toString entry.entity.ind ++ " entity seized " ++ toString entry.demand ++ " " ++ r.name ++ " resources"
          let ev : Event := ⟨release_time, "Seize", msg, entry.handler, entry.entity, []⟩
          Except.ok ({ r2 with queue := rest }, some ev)
      else Except.ok (r1, none)

/-- Sum over adjacent availability-log samples of (t2 - t1) * a1, exactly the
zip-with-tail loop of Resource.calc_utilization. -/
def availIntegral : List (ℚ × Int) → ℚ
  | (t1, a1) :: (t2, a2) :: rest => (t2 - t1) * (a1 : ℚ) + availIntegral ((t2, a2) :: rest)
  | _ => 0

/-- Resource.calc_utilization from src/datatypes.py: the availability integral
divided by capacity times duration. -/
def Resource.calc_utilization (r : Resource) (duration : ℚ) : ℚ :=
  availIntegral r.availability_log / ((r.capacity : ℚ) * duration)

/-- Modelled from the spec (section 4.13 and glossary): utilization as the
busy-time integral, accumulating (t2 - t1) * (capacity - a1) over adjacent
samples. Stated for comparison with the source definition above. -/
def busyIntegral (capacity : Int) : List (ℚ × Int) → ℚ
  | (t1, a1) :: (t2, a2) :: rest =>
      (t2 - t1) * ((capacity : ℚ) - (a1 : ℚ)) + busyIntegral capacity ((t2, a2) :: rest)
  | _ => 0

/-- Modelled from the spec: the utilization value the spec prescribes. -/
def utilizationSpec (r : Resource) (duration : ℚ) : ℚ :=
  busyIntegral r.capacity r.availability_log / ((r.capacity : ℚ) * duration)

/-- Per-entity updated-attributes dictionary returned by a handler in
src/environment.py (merged into Environment.system_attr). -/
abbrev SysAttrDict := List (String × ℚ)

/-- Set one key of a string-keyed dictionary (replace the first binding or
append). -/
def dictSet (d : SysAttrDict) (k : String) (v : ℚ) : SysAttrDict :=
  match d with
  | [] => [(k, v)]
  | (k0, v0) :: rest => if k0 == k then (k, v) :: rest else (k0, v0) :: dictSet rest k v

/-- Python dict.update: fold every binding of upd into d. -/
def dictUpdate (d upd : SysAttrDict) : SysAttrDict :=
  upd.foldl (fun acc kv => dictSet acc kv.1 kv.2) d

/-- Environment from src/environment.py: the event queue holds tuples
(event_time, entity_ind, event); system_attr maps entity indices to attribute
dictionaries. -/
structure Env where
  event_queue : List (ℚ × Nat × Event)
  system_attr : List (Nat × SysAttrDict)

/-- Strict lexicographic order on event-queue tuples (event_time, entity_ind),
the comparison heapq uses in Environment.add_event. -/
def qLt (a b : ℚ × Nat × Event) : Bool :=
  decide (a.1 < b.1) || (a.1 == b.1 && decide (a.2.1 < b.2.1))

/-- Ordered insert modelling heapq.heappush on the event queue. -/
def qInsert : List (ℚ × Nat × Event) → (ℚ × Nat × Event) → List (ℚ × Nat × Event)
  | [], a => [a]
  | b :: rest, a => if qLt a b then a :: b :: rest else b :: qInsert rest a

/-- Environment.add_event from src/environment.py: push
(event.event_time, event.event_entity.entity_ind, event). -/
def Env.add_event (env : Env) (e : Event) : Env :=
  { env with event_queue := qInsert env.event_queue (e.event_time, e.event_entity.ind, e) }

/-- Push a list of events in order (the for-loop over new_events). -/
def Env.pushAll (env : Env) (l : List Event) : Env :=
  l.foldl Env.add_event env

/-- Replace the system_attr entry of one entity index. -/
def sysAttrSet (sa : List (Nat × SysAttrDict)) (ind : Nat) (d : SysAttrDict) :
    List (Nat × SysAttrDict) :=
  match sa with
  | [] => [(ind, d)]
  | (i0, d0) :: rest => if i0 == ind then (ind, d) :: rest else (i0, d0) :: sysAttrSet rest ind d

/-- Lookup the system_attr entry of one entity index. -/
def sysAttrFind (sa : List (Nat × SysAttrDict)) (ind : Nat) : Option SysAttrDict :=
  (sa.find? (fun p => p.1 == ind)).map (fun p => p.2)

/-- Merge of an updated_attr dictionary into system_attr, guarded by the
Python truthiness test (an empty dict updates nothing): insert an empty entry
when the index is missing, then dict-update it. -/
def Env.applyUpd (env : Env) (ind : Nat) (upd : SysAttrDict) : Env :=
  if upd.isEmpty then env
  else
    match sysAttrFind env.system_attr ind with
    | none => { env with system_attr := sysAttrSet env.system_attr ind (dictUpdate [] upd) }
    | some d => { env with system_attr := sysAttrSet env.system_attr ind (dictUpdate d upd) }

/-- Interpretation of handler identifiers: in src/environment.py the handler is
applied to the event alone and returns the pair (new_events, updated_attr). -/
abbrev Interp := Handler → Event → List Event × SysAttrDict

/-- One iteration of the run_simulation loop in src/environment.py: none when
the queue is empty or the top event time exceeds the duration; otherwise pop
the heap minimum, apply its handler to the event, merge the returned
updated_attr into system_attr, then push each returned event. -/
def stepSim (interp : Interp) (duration : ℚ) (env : Env) : Option (Event × Env) :=
  match env.event_queue with
  | [] => none
  | x :: rest =>
    if x.2.2.event_time ≤ duration then
      some (x.2.2,
        Env.pushAll
          (Env.applyUpd { env with event_queue := rest }
            x.2.2.event_entity.ind (interp x.2.2.event_handler x.2.2).2)
          (interp x.2.2.event_handler x.2.2).1)
    else none

/-- Per-entity metrics record: the sys_var entity metrics dictionary with the
five timing buckets and the created and disposed timestamps. -/
structure Metrics where
  entity_type : String
  created_at : Option ℚ
  disposed_at : Option ℚ
  value_added_time : ℚ
  non_value_added_time : ℚ
  wait_time : ℚ
  transfer_time : ℚ
  other_time : ℚ

/-- Entity part of sys_var: metrics and trace keyed by entity index. -/
structure SysVarE where
  metrics : List (Nat × Metrics)
  trace : List (Nat × List (String × ℚ))

/-- Association-list lookup keyed by entity index. -/
def assocFind {α : Type} (l : List (Nat × α)) (k : Nat) : Option α :=
  (l.find? (fun p => p.1 == k)).map (fun p => p.2)

/-- Association-list replacement keyed by entity index. -/
def assocSet {α : Type} (l : List (Nat × α)) (k : Nat) (v : α) : List (Nat × α) :=
  match l with
  | [] => []
  | (k0, v0) :: rest => if k0 == k then (k, v) :: rest else (k0, v0) :: assocSet rest k v

/-- Add a wait-time amount to the Wait Time metric of one entity; a missing
metrics entry is a KeyError. -/
def svAddWait (sv : SysVarE) (ind : Nat) (w : ℚ) : Except String SysVarE :=
  match assocFind sv.metrics ind with
  | none => Except.error "KeyError"
  | some m =>
    Except.ok { sv with metrics := assocSet sv.metrics ind { m with wait_time := m.wait_time + w } }

/-- Append one trace entry for one entity; a missing trace entry is a
KeyError. -/
def svTraceAppend (sv : SysVarE) (ind : Nat) (lbl : String) (t : ℚ) : Except String SysVarE :=
  match assocFind sv.trace ind with
  | none => Except.error "KeyError"
  | some tr => Except.ok { sv with trace := assocSet sv.trace ind (tr ++ [(lbl, t)]) }

/-- SeizeModule from src/modules.py; the successor and the shared resource are
referenced by identifier and name. -/
structure SeizeModule where
  name : String
  next_module : Nat
  resource : String
  num_resources : Int
  module_ind : Nat

/-- Trace and wait-time update applied to one batch constituent inside
SeizeModule.process_event. -/
def seizeConstituentUpd (mname : String) (event : Event) (sv : SysVarE) (e : PEntity) :
    Except String SysVarE := do
  let sv1 ← svTraceAppend sv e.entity_ind ("Exit " ++ mname) event.event_time
  match eventAttrLookup event.attr "wait_time" with
  | some (AttrVal.num w) => svAddWait sv1 e.entity_ind w
  | some (AttrVal.entities _) => Except.error "TypeError"
  | none => Except.ok sv1

/-- Fold of seizeConstituentUpd over the batched constituents. -/
def seizeBatchFold (mname : String) (event : Event) (cs : List PEntity) (sv : SysVarE) :
    Except String SysVarE :=
  match cs with
  | [] => Except.ok sv
  | c :: rest => do
    let sv1 ← seizeConstituentUpd mname event sv c
    seizeBatchFold mname event rest sv1

/-- SeizeModule.process_event from src/modules.py: append a trace entry, add a
wait_time payload (when present) to the Wait Time metric, mirror both updates
for every constituent of a BatchEntity, then forward the entity to the
successor at the event time (the forward call is returned as data). -/
def SeizeModule.process_event (m : SeizeModule) (event : Event) (sys_var : SysVarE) :
    Except String (SysVarE × (Nat × SEntity × ℚ)) := do
  let ind := event.event_entity.ind
  let sv1 ← svTraceAppend sys_var ind ("Exit " ++ m.name) event.event_time
  let sv2 ←
    match eventAttrLookup event.attr "wait_time" with
    | some (AttrVal.num w) => svAddWait sv1 ind w
    | some (AttrVal.entities _) => Except.error "TypeError"
    | none => Except.ok sv1
  let sv3 ←
    match event.event_entity with
    | SEntity.plain _ => Except.ok sv2
    | SEntity.batch _ cs => seizeBatchFold m.name event cs sv2
  Except.ok (sv3, (m.next_module, event.event_entity, event.event_time))

/-- Modelled from the spec (section 4.9): the BatchType enum referenced by
src/modules.py; the datatypes.py under src is a stale version missing it. -/
inductive BatchType where
  | ATTRIBUTE
  | ANY

/-- BatchModule from src/modules.py with its FIFO waiting queue of
(entity, entry_time) pairs. -/
structure BatchModule where
  name : String
  next_module : Nat
  batch_type : BatchType
  batch_size : Int
  batch_attr : Option String
  batch_entity_type : Option String
  queue : List (SEntity × ℚ)
  module_ind : Nat

/-- Match condition of the attribute scan: the batch attribute key is present
in both attribute maps and the two values are equal. -/
def batchCond (battr : Option String) (qattr eattr : AttrMap) : Bool :=
  match battr with
  | none => false
  | some a => attrHasKey qattr a && attrHasKey eattr a && (attrLookup qattr a == attrLookup eattr a)

/-- The queue scan of BatchModule.ingest_entity: walk the queue from index k,
record each matching index, decrement the needed count, and break when it
reaches zero. Returns the recorded indices and the final needed count. -/
def findMatchIndices (queue : List (SEntity × ℚ)) (ent : SEntity) (battr : Option String)
    (needed : Int) (k : Nat) : List Nat × Int :=
  match queue with
  | [] => ([], needed)
  | (q, _) :: rest =>
    if batchCond battr q.attr ent.attr then
      if needed - 1 = 0 then ([k], 0)
      else
        let r := findMatchIndices rest ent battr (needed - 1) (k + 1)
        (k :: r.1, r.2)
    else findMatchIndices rest ent battr needed (k + 1)

/-- List indexing with the Python IndexError behaviour. -/
def getAt {α : Type} (l : List α) (i : Nat) : Except String α :=
  match l.get? i with
  | some x => Except.ok x
  | none => Except.error "IndexError: deque index out of range"

/-- Deletion at an index with the Python IndexError behaviour. -/
def delAt {α : Type} (l : List α) (i : Nat) : Except String (List α) :=
  if i < l.length then Except.ok (l.eraseIdx i) else
    Except.error "IndexError: deque index out of range"

/-- Sequential deletion loop of BatchModule.ingest_entity: del queue[i] for
each recorded index in order, each deletion shifting later positions. -/
def delAtAll {α : Type} (l : List α) (is0 : List Nat) : Except String (List α) :=
  match is0 with
  | [] => Except.ok l
  | i :: rest => do
    let l1 ← delAt l i
    delAtAll l1 rest

/-- Diagnostic listing of batched entities for the event message. -/
def batchMsg (batch_entities : List (SEntity × ℚ)) : String :=
  "Batched entities: " ++
    String.intercalate ", " (batch_entities.map (fun p => p.1.etype ++ " " ++ toString p.1.ind))

/-- The Batch event built once enough matches are found. -/
def mkBatchEvent (m : BatchModule) (entity : SEntity) (ingest_time : ℚ)
    (batch_entities : List (SEntity × ℚ)) : Event :=
  { event_time := ingest_time, event_name := "Batch",
    event_message := batchMsg batch_entities,
    event_handler := m.module_ind, event_entity := entity,
    attr := [("batch_entities", AttrVal.entities batch_entities)] }

/-- BatchModule.ingest_entity from src/modules.py: refuse a BatchEntity; in
ATTRIBUTE mode scan the queue for batch_size - 1 attribute matches, and when
found, read the matched entries, run the deletion loop, and return one Batch
event whose payload lists the arriving entity first; otherwise (or in ANY mode
with a short queue) append the arriving entity. In ANY mode pop the oldest
batch_size - 1 entries. -/
def BatchModule.ingest_entity (m : BatchModule) (entity : SEntity) (ingest_time : ℚ) :
    Except String (BatchModule × List Event) :=
  if entity.isBatch then
    Except.error "TypeError: Invalid entity type provided to Batch Module. Expected: Entity. Received: BatchEntity."
  else
    match m.batch_type with
    | BatchType.ATTRIBUTE =>
      let res := findMatchIndices m.queue entity m.batch_attr (m.batch_size - 1) 0
      if res.2 = 0 then do
        let matched ← res.1.mapM (getAt m.queue)
        let newQueue ← delAtAll m.queue res.1
        let batch_entities := (entity, ingest_time) :: matched
        Except.ok ({ m with queue := newQueue }, [mkBatchEvent m entity ingest_time batch_entities])
      else Except.ok ({ m with queue := m.queue ++ [(entity, ingest_time)] }, [])
    | BatchType.ANY =>
      if m.batch_size - 1 ≤ (m.queue.length : Int) then
        let batch_entities := (entity, ingest_time) :: m.queue.take (m.batch_size - 1).toNat
        Except.ok ({ m with queue := m.queue.drop (m.batch_size - 1).toNat },
          [mkBatchEvent m entity ingest_time batch_entities])
      else Except.ok ({ m with queue := m.queue ++ [(entity, ingest_time)] }, [])

/-- Module kinds of src/modules.py, for the per-class index counters. -/
inductive ModuleKind where
  | create
  | seize
  | delay
  | release
  | assign
  | duplicate
  | batch
  | separate
  | decide
  | dispose
deriving DecidableEq

/-- Per-class module_ind counters: each module dataclass evaluates its own
itertools.count at class-definition time, so every kind has a separate
counter. -/
structure ModCounters where
  createCount : Nat
  seizeCount : Nat
  delayCount : Nat
  releaseCount : Nat
  assignCount : Nat
  duplicateCount : Nat
  batchCount : Nat
  separateCount : Nat
  decideCount : Nat
  disposeCount : Nat

/-- Counters at process start. -/
def initCounters : ModCounters :=
  { createCount := 0, seizeCount := 0, delayCount := 0, releaseCount := 0,
    assignCount := 0, duplicateCount := 0, batchCount := 0, separateCount := 0,
    decideCount := 0, disposeCount := 0 }

/-- Read the counter of one module kind. -/
def ModCounters.get (s : ModCounters) : ModuleKind → Nat
  | ModuleKind.create => s.createCount
  | ModuleKind.seize => s.seizeCount
  | ModuleKind.delay => s.delayCount
  | ModuleKind.release => s.releaseCount
  | ModuleKind.assign => s.assignCount
  | ModuleKind.duplicate => s.duplicateCount
  | ModuleKind.batch => s.batchCount
  | ModuleKind.separate => s.separateCount
  | ModuleKind.decide => s.decideCount
  | ModuleKind.dispose => s.disposeCount

/-- Bump the counter of one module kind. -/
def ModCounters.bump (s : ModCounters) : ModuleKind → ModCounters
  | ModuleKind.create => { s with createCount := s.createCount + 1 }
  | ModuleKind.seize => { s with seizeCount := s.seizeCount + 1 }
  | ModuleKind.delay => { s with delayCount := s.delayCount + 1 }
  | ModuleKind.release => { s with releaseCount := s.releaseCount + 1 }
  | ModuleKind.assign => { s with assignCount := s.assignCount + 1 }
  | ModuleKind.duplicate => { s with duplicateCount := s.duplicateCount + 1 }
  | ModuleKind.batch => { s with batchCount := s.batchCount + 1 }
  | ModuleKind.separate => { s with separateCount := s.separateCount + 1 }
  | ModuleKind.decide => { s with decideCount := s.decideCount + 1 }
  | ModuleKind.dispose => { s with disposeCount := s.disposeCount + 1 }

/-- Construction of one module of a given kind: the module_ind it receives is
the current value of the counter of ITS OWN class, which is then bumped. -/
def mkModuleInd (k : ModuleKind) (s : ModCounters) : Nat × ModCounters :=
  (s.get k, s.bump k)

/-- Successive Entity constructions against the single Entity-class counter:
the k-th constructed entity receives index c + k. -/
def buildEntities (c : Nat) : List (String × ℚ) → List PEntity
  | [] => []
  | (ty, t0) :: rest =>
    { entity_type := ty, arrival_time := t0, entity_ind := c, attr := [] } :: buildEntities (c + 1) rest

/-- Ok-projection of an Except value. -/
def exOk {α : Type} (x : Except String α) : Option α :=
  match x with
  | Except.ok a => some a
  | Except.error _ => none

/-- Boolean success test of an Except value. -/
def exIsOk {α : Type} (x : Except String α) : Bool :=
  match x with
  | Except.ok _ => true
  | Except.error _ => false

/-- Non-strict lexicographic order on event-queue tuples by
(event_time, entity_ind), the ordering the heap pop respects. -/
def qKeyLe (a b : ℚ × Nat × Event) : Prop :=
  a.1 < b.1 ∨ (a.1 = b.1 ∧ a.2.1 ≤ b.2.1)

instance qKeyLeDec (a b : ℚ × Nat × Event) : Decidable (qKeyLe a b) := by
  unfold qKeyLe
  infer_instance

/-- Fixture: queued waiter for the released-amount evaluation. -/
def entC1 : SEntity := SEntity.plain ⟨"Part", 0, 7, []⟩

/-- Fixture: resource with capacity 3, available 1, one waiter demanding 1. -/
def rC1 : Resource := ⟨"Server", 3, 1, [⟨0, 1, 7, entC1, 42⟩], []⟩

/-- Fixture: resource state after release rC1 2 5. -/
def rC1out : Resource := ⟨"Server", 3, 1, [], [(5, 3), (5, 1)]⟩

/-- Fixture: the synthesized Seize event of release rC1 2 5. -/
def evC1out : Event := ⟨5, "Seize", "Part 7 entity seized 1 Server resources", 42, entC1, []⟩

/-- Fixture: queued waiter for the wait-time evaluation. -/
def entC2 : SEntity := SEntity.plain ⟨"Test", 0, 4, []⟩

/-- Fixture: capacity-1 resource with one waiter queued at time 0. -/
def rC2 : Resource := ⟨"Server", 1, 0, [⟨0, 1, 4, entC2, 9⟩], []⟩

/-- Fixture: a SeizeModule. -/
def m2 : SeizeModule := ⟨"Test Seize", 3, "Server", 1, 0⟩

/-- Fixture: a Seize event carrying a wait_time payload of 5. -/
def evW : Event := ⟨7, "Seize", "seize message", 0, entC2, [("wait_time", AttrVal.num 5)]⟩

/-- Fixture: sys_var with entity 4 holding Wait Time 3 and an empty trace. -/
def svC2 : SysVarE := ⟨[(4, ⟨"Test", none, none, 0, 0, 3, 0, 0⟩)], [(4, [])]⟩

/-- Fixture: entity for the run-loop evaluation. -/
def entC3 : SEntity := SEntity.plain ⟨"Test", 1, 2, []⟩

/-- Fixture: initial event of the run-loop evaluation. -/
def evC3a : Event := ⟨1, "Create", "arrival", 0, entC3, []⟩

/-- Fixture: the event the handler schedules. -/
def evC3b : Event := ⟨4, "Delay", "delayed", 1, entC3, []⟩

/-- Fixture: environment holding one queued event. -/
def envC3 : Env := ⟨[(1, 2, evC3a)], []⟩

/-- Fixture: handler interpretation returning one new event and a non-empty
updated_attr dictionary, the pair shape src/environment.py unpacks. -/
def interpC3 : Interp := fun _ _ => ([evC3b], [("create_time", 1)])

/-- Fixture: capacity-1 resource whose log records availability 0 on [0,5)
and 1 from t=5. -/
def rC4 : Resource := ⟨"Server", 1, 0, [], [(0, 0), (5, 1)]⟩

/-- Fixture: queued waiter with attribute k=7. -/
def px : SEntity := SEntity.plain ⟨"P", 0, 6, [("k", 7)]⟩

/-- Fixture: second queued waiter with attribute k=7. -/
def py : SEntity := SEntity.plain ⟨"P", 0, 7, [("k", 7)]⟩

/-- Fixture: queued waiter without the batch attribute. -/
def pz : SEntity := SEntity.plain ⟨"P", 0, 8, []⟩

/-- Fixture: arriving entity with attribute k=7. -/
def pA : SEntity := SEntity.plain ⟨"P", 0, 9, [("k", 7)]⟩

/-- Fixture: ATTRIBUTE batch module, size 3, queue of two matching waiters. -/
def m5a : BatchModule := ⟨"Batch 1", 1, BatchType.ATTRIBUTE, 3, some "k", none, [(px, 0), (py, 1)], 0⟩

/-- Fixture: ATTRIBUTE batch module, size 3, queue of two matching waiters and
one unmatched waiter. -/
def m5b : BatchModule := ⟨"Batch 1", 1, BatchType.ATTRIBUTE, 3, some "k", none, [(px, 0), (py, 1), (pz, 2)], 0⟩

/-- Fixture: entity with index 1. -/
def ent6a : SEntity := SEntity.plain ⟨"A", 0, 1, []⟩

/-- Fixture: entity with index 2. -/
def ent6b : SEntity := SEntity.plain ⟨"B", 0, 2, []⟩

/-- Fixture: event at time 3 for entity 1. -/
def ev6a : Event := ⟨3, "E", "m", 0, ent6a, []⟩

/-- Fixture: event at time 3 for entity 2. -/
def ev6b : Event := ⟨3, "E", "m", 0, ent6b, []⟩

/-- Fixture: environment with two same-time events queued. -/
def env6 : Env := ⟨[(3, 1, ev6a), (3, 2, ev6b)], []⟩

/-- Fixture: environment after the first pop. -/
def env6b : Env := ⟨[(3, 2, ev6b)], []⟩

/-- Fixture: environment after the second pop. -/
def env6c : Env := ⟨[], []⟩

/-- Fixture: handler interpretation scheduling nothing. -/
def interp6 : Interp := fun _ _ => ([], [])

/-- Fixture: queued waiter for the two-sample release. -/
def entC7 : SEntity := SEntity.plain ⟨"Job", 0, 5, []⟩

/-- Fixture: capacity-1 resource, fully seized, one waiter queued. -/
def rC7 : Resource := ⟨"Server", 1, 0, [⟨0, 1, 5, entC7, 9⟩], []⟩

/-- Fixture: resource for the error-condition witness. -/
def rC7w : Resource := ⟨"Server", 2, 1, [], [(0, 1)]⟩

/-- Fixture: result of seize rC7w 1 3. -/
def rC7after : Resource := ⟨"Server", 2, 0, [], [(0, 1), (3, 0)]⟩

/-- Fixture: result of release rC7w 1 3. -/
def rC7rel : Resource := ⟨"Server", 2, 2, [], [(0, 1), (3, 2)]⟩

/-- Fixture: resource for the invariant witness. -/
def rC8 : Resource := ⟨"Server", 2, 1, [], []⟩

/-- Fixture: result of seize rC8 1 0. -/
def rC8s : Resource := ⟨"Server", 2, 0, [], [(0, 0)]⟩

/-- Fixture: result of release rC8 1 0. -/
def rC8r : Resource := ⟨"Server", 2, 2, [], [(0, 2)]⟩

/-- Fixture: two entity construction requests. -/
def ents9 : List (String × ℚ) := [("A", 0), ("B", 1)]

/-- Fixture: arriving entity lacking the batch attribute k. -/
def pe10 : PEntity := ⟨"Q", 0, 11, [("x", 1)]⟩

/-- Fixture: queued waiter holding the batch attribute k. -/
def q10 : SEntity := SEntity.plain ⟨"Q", 0, 10, [("k", 3)]⟩

/-- Fixture: ATTRIBUTE batch module of size 2 with one queued waiter. -/
def m10 : BatchModule := ⟨"Batch", 1, BatchType.ATTRIBUTE, 2, some "k", none, [(q10, 0)], 0⟩

/-- C1: evaluation of Resource.release on a resource with capacity 3,
available 1 and a queued waiter demanding 1. Releasing 2 wakes the waiter but
the internal seize is called with the RELEASED amount 2, so available ends at
1; the claim (seize the head demand 1) would leave available 2. The
synthesized event does carry the queued handler 42 and time 5, and its own
message even names the head demand 1. -/
theorem release_seizes_released_amount :
    exOk (Resource.release rC1 2 5) = some (rC1out, some evC1out) ∧ rC1out.available = 1 := by
  exact ⟨rfl, rfl⟩

/-- C2: evaluation showing the release-side half of the claim fails while the
module-side half holds. A release that wakes the waiter queued at time 0
synthesizes a Seize event whose attr dictionary has no wait_time binding at
all; yet SeizeModule.process_event, handed an event that does carry
wait_time 5, adds it to the Wait Time metric (3 becomes 8). -/
theorem release_event_lacks_wait_time :
    (exOk (Resource.release rC2 1 5)).map (fun p => p.2.map (fun e => eventAttrLookup e.attr "wait_time")) = some (some none) ∧
    (exOk (SeizeModule.process_event m2 evW svC2)).map (fun p => (assocFind p.1.metrics 4).map Metrics.wait_time) = some (some (3 + 5)) := by
  exact ⟨rfl, rfl⟩

/-- C3: evaluation of one iteration of the run_simulation loop of
src/environment.py. The handler is applied to the popped event alone and
returns the pair (new_events, updated_attr): the new event is pushed AND the
updated_attr dictionary is merged into system_attr, diverging from the claim
that the handler is invoked as handler(event, sys_var) and returns only a
list. The exit cases match the claim: the loop stops when the top event time
exceeds the duration or the queue is empty. -/
theorem run_loop_step_eval :
    stepSim interpC3 10 envC3 = some (evC3a, ⟨[(4, 2, evC3b)], [(2, [("create_time", 1)])]⟩) ∧
    stepSim interpC3 0 envC3 = none ∧
    stepSim interpC3 10 ⟨[], []⟩ = none := by
  exact ⟨rfl, rfl, rfl⟩

/-- C4: evaluation of calc_utilization on a capacity-1 resource seized on
[0,5) and available from t=5, over duration 10. The source integrates the
availability samples and reports 0, while the utilization prescribed by the
claim (busy-time integral) is 1/2. -/
theorem calc_utilization_integrates_availability :
    Resource.calc_utilization rC4 10 = 0 ∧ utilizationSpec rC4 10 = 1/2 := by
  constructor
  · norm_num [Resource.calc_utilization, availIntegral, rC4]
  · norm_num [utilizationSpec, busyIntegral, rC4]

/-- C5: evaluation of the ATTRIBUTE deletion loop. With batch_size 3 and two
matching waiters the second del queue[i] runs on a shifted deque and raises
IndexError (ok-projection none); with a third unmatched waiter present the
loop instead deletes the wrong entry, leaving matched waiter 7 queued and
removing unmatched waiter 8, even though the Batch event payload lists the
arriving entity 9 and the two matched waiters 6 and 7. -/
theorem batch_ingest_deletion_bug :
    exOk (BatchModule.ingest_entity m5a pA 2) = none ∧
    (exOk (BatchModule.ingest_entity m5b pA 2)).map (fun p => (p.1.queue.map (fun q => q.1.ind), p.2.map (fun e => eventAttrLookup e.attr "batch_entities"))) =
      some ([7], [some (AttrVal.entities [(pA, 2), (px, 0), (py, 1)])]) := by
  exact ⟨rfl, rfl⟩

/-- C7 counterexample: a successful release that wakes the queue head appends
TWO availability-log samples, (2,1) from the release and (2,0) from the
internal seize, refuting the claim that each success case appends exactly one
sample. -/
theorem release_appends_two_samples :
    (exOk (Resource.release rC7 1 2)).map (fun p => (p.1.availability_log, p.2.isSome)) = some ([(2, 1), (2, 0)], true) := by
  exact rfl

/-- C7 (amended): from a state with a nonnegative available count, seize
raises exactly when the demand exceeds available and release raises exactly
when the demand exceeds capacity minus available (errors are raised before any
mutation, so the error results carry no state); a successful seize appends
exactly one log sample; a successful release appends exactly one sample when
it wakes nobody, and two samples, with available unchanged on net, when it
wakes the queue head. -/
theorem seize_release_error_iff (r : Resource) (n : Int) (t : ℚ) (h0 : 0 ≤ r.available) :
    (exIsOk (Resource.seize r n t) = false ↔ r.available < n) ∧
    (∀ r1, Resource.seize r n t = Except.ok r1 →
      r1.available = r.available - n ∧ r1.availability_log = r.availability_log ++ [(t, r.available - n)]) ∧
    (exIsOk (Resource.release r n t) = false ↔ r.capacity - r.available < n) ∧
    (∀ r1 oe, Resource.release r n t = Except.ok (r1, oe) →
      (oe.isSome = false → r1.available = r.available + n ∧ r1.availability_log = r.availability_log ++ [(t, r.available + n)]) ∧
      (oe.isSome = true → r1.available = r.available ∧ r1.availability_log = r.availability_log ++ [(t, r.available + n), (t, r.available)])) := by
  obtain ⟨nm, cap, avail, q, log⟩ := r
  dsimp only at h0 ⊢
  refine ⟨?_, ?_, ?_, ?_⟩
  · simp only [Resource.seize, exIsOk]
    split_ifs with h1
    · simpa using h1
    · simp
      omega
  · intro r1 h
    simp only [Resource.seize] at h
    split_ifs at h with h1
    simp only [Except.ok.injEq] at h
    subst h
    exact ⟨rfl, rfl⟩
  · simp only [Resource.release, Resource.seize, exIsOk]
    cases q with
    | nil =>
      dsimp only
      split_ifs with h1
      · simpa using h1
      · simp
        omega
    | cons entry rest =>
      dsimp only
      split_ifs with h1 h2 h3
      · simpa using h1
      · exact absurd h3 (by omega)
      · simp
        omega
      · simp
        omega
  · intro r1 oe h
    simp only [Resource.release, Resource.seize] at h
    cases q with
    | nil =>
      dsimp only at h
      split_ifs at h with h1
      simp only [Except.ok.injEq, Prod.mk.injEq] at h
      obtain ⟨h2, h3⟩ := h
      subst h2
      subst h3
      constructor
      · intro
        exact ⟨rfl, rfl⟩
      · intro hs
        simp at hs
    | cons entry rest =>
      dsimp only at h
      split_ifs at h with h1 h2 h3
      · simp only [Except.ok.injEq, Prod.mk.injEq] at h
        obtain ⟨h4, h5⟩ := h
        subst h4
        subst h5
        constructor
        · intro hs
          simp at hs
        · intro
          have hav : avail + n - n = avail := by omega
          constructor
          · dsimp only
            omega
          · dsimp only
            rw [hav]
            simp
      · simp only [Except.ok.injEq, Prod.mk.injEq] at h
        obtain ⟨h4, h5⟩ := h
        subst h4
        subst h5
        constructor
        · intro
          exact ⟨rfl, rfl⟩
        · intro hs
          simp at hs

/-- C7 witness: the amended statement applied to a concrete resource with
capacity 2 and available 1, both a successful seize and a successful
wake-free release. -/
theorem seize_release_error_iff_witness :
    (exIsOk (Resource.seize rC7w 1 3) = false ↔ rC7w.available < 1) ∧
    (rC7after.available = rC7w.available - 1 ∧ rC7after.availability_log = rC7w.availability_log ++ [(3, rC7w.available - 1)]) ∧
    (exIsOk (Resource.release rC7w 1 3) = false ↔ rC7w.capacity - rC7w.available < 1) ∧
    (rC7rel.available = rC7w.available + 1 ∧ rC7rel.availability_log = rC7w.availability_log ++ [(3, rC7w.available + 1)]) := by
  have h := seize_release_error_iff rC7w 1 3 (by decide)
  exact ⟨h.1, h.2.1 rC7after rfl, h.2.2.1, (h.2.2.2 rC7rel none rfl).1 rfl⟩

/-- C8: from any state with 0 ≤ available ≤ capacity and a nonnegative
demand, every successful seize and every successful release (the latter
including the internal seize performed when the release wakes the queue head)
leaves 0 ≤ available ≤ capacity. -/
theorem resource_invariant_preserved (r : Resource) (n : Int) (t : ℚ)
    (h0 : 0 ≤ r.available) (hc : r.available ≤ r.capacity) (hn : 0 ≤ n) :
    (∀ r1, Resource.seize r n t = Except.ok r1 → 0 ≤ r1.available ∧ r1.available ≤ r1.capacity) ∧
    (∀ r1 oe, Resource.release r n t = Except.ok (r1, oe) → 0 ≤ r1.available ∧ r1.available ≤ r1.capacity) := by
  obtain ⟨nm, cap, avail, q, log⟩ := r
  dsimp only at h0 hc ⊢
  constructor
  · intro r1 h
    simp only [Resource.seize] at h
    split_ifs at h with h1
    simp only [Except.ok.injEq] at h
    subst h
    dsimp only
    omega
  · intro r1 oe h
    simp only [Resource.release, Resource.seize] at h
    cases q with
    | nil =>
      dsimp only at h
      split_ifs at h with h1
      simp only [Except.ok.injEq, Prod.mk.injEq] at h
      obtain ⟨h2, h3⟩ := h
      subst h2
      dsimp only
      omega
    | cons entry rest =>
      dsimp only at h
      split_ifs at h with h1 h2 h3
      · simp only [Except.ok.injEq, Prod.mk.injEq] at h
        obtain ⟨h4, h5⟩ := h
        subst h4
        dsimp only
        omega
      · simp only [Except.ok.injEq, Prod.mk.injEq] at h
        obtain ⟨h4, h5⟩ := h
        subst h4
        dsimp only
        omega

/-- C8 witness: the invariant theorem applied to a concrete resource with
capacity 2 and available 1, for a successful seize and a successful
release. -/
theorem resource_invariant_preserved_witness :
    (0 ≤ rC8s.available ∧ rC8s.available ≤ rC8s.capacity) ∧
    (0 ≤ rC8r.available ∧ rC8r.available ≤ rC8r.capacity) := by
  have h := resource_invariant_preserved rC8 1 0 (by decide) (by decide) (by decide)
  exact ⟨h.1 rC8s rfl, h.2 rC8r none rfl⟩

/-- C9 counterexample: the first CreateModule and the first SeizeModule each
draw index 0 from their own class counter, so two modules of different kinds
share a module_ind, refuting process-uniqueness across kinds. -/
theorem module_ind_shared_across_kinds :
    (mkModuleInd ModuleKind.create initCounters).1 = 0 ∧
    (mkModuleInd ModuleKind.seize (mkModuleInd ModuleKind.create initCounters).2).1 = 0 ∧
    ModuleKind.create ≠ ModuleKind.seize := by
  exact ⟨rfl, rfl, by decide⟩

/-- Helper: the k-th entity constructed from counter value c receives
entity_ind c + k. -/
theorem buildEntities_get : ∀ (specs : List (String × ℚ)) (c k : Nat), k < specs.length →
    ((buildEntities c specs).get? k).map PEntity.entity_ind = some (c + k) := by
  intro specs
  induction specs with
  | nil =>
    intro c k h
    simp at h
  | cons s rest ih =>
    intro c k h
    obtain ⟨ty, t0⟩ := s
    cases k with
    | zero => simp [buildEntities]
    | succ k2 =>
      have h2 : k2 < rest.length := by simpa using h
      have h3 := ih (c + 1) k2 h2
      simp only [buildEntities, List.get?_cons_succ]
      rw [h3]
      congr 1
      omega

/-- C9 (amended): entity_ind values are process-unique and strictly increasing
in construction order, since all entities share the single Entity-class
counter; module_ind values are strictly increasing only among modules of the
SAME kind, each module class drawing from its own counter (so different kinds
can collide, as the counterexample shows). -/
theorem entity_ind_and_module_ind_counters (c j k : Nat) (specs : List (String × ℚ))
    (kind : ModuleKind) (s : ModCounters) (hjk : j < k) (hk : k < specs.length) :
    ((buildEntities c specs).get? j).map PEntity.entity_ind = some (c + j) ∧
    ((buildEntities c specs).get? k).map PEntity.entity_ind = some (c + k) ∧
    c + j < c + k ∧
    (mkModuleInd kind s).1 < (mkModuleInd kind (mkModuleInd kind s).2).1 := by
  refine ⟨buildEntities_get specs c j (lt_trans hjk hk), buildEntities_get specs c k hk,
    by omega, ?_⟩
  cases kind <;> simp [mkModuleInd, ModCounters.get, ModCounters.bump]

/-- C9 witness: the amended statement at two concrete entity constructions and
two consecutive CreateModule constructions. -/
theorem entity_ind_and_module_ind_counters_witness :
    ((buildEntities 0 ents9).get? 0).map PEntity.entity_ind = some (0 + 0) ∧
    ((buildEntities 0 ents9).get? 1).map PEntity.entity_ind = some (0 + 1) ∧
    0 + 0 < 0 + 1 ∧
    (mkModuleInd ModuleKind.create initCounters).1 <
      (mkModuleInd ModuleKind.create (mkModuleInd ModuleKind.create initCounters).2).1 :=
  entity_ind_and_module_ind_counters 0 0 1 ents9 ModuleKind.create initCounters
    (by decide) (by decide)

/-- Helper: the attribute-scan match condition is false whenever the arriving
entity lacks the batch attribute key. -/
theorem batchCond_no_key (a : String) (qattr eattr : AttrMap)
    (hk : attrHasKey eattr a = false) : batchCond (some a) qattr eattr = false := by
  simp [batchCond, hk]

/-- Helper: an arriving entity lacking the batch attribute key matches nothing:
the scan records no indices and the needed count is returned unchanged. -/
theorem findMatch_no_key (ent : SEntity) (a : String) (hk : attrHasKey ent.attr a = false) :
    ∀ (q : List (SEntity × ℚ)) (needed : Int) (k : Nat),
      findMatchIndices q ent (some a) needed k = ([], needed) := by
  intro q
  induction q with
  | nil =>
    intro needed k
    rfl
  | cons p rest ih =>
    intro needed k
    obtain ⟨qe, qt⟩ := p
    simp only [findMatchIndices]
    rw [batchCond_no_key a qe.attr ent.attr hk]
    simp only [Bool.false_eq_true, if_false]
    exact ih needed (k + 1)

/-- Helper: every index the attribute scan records points at a queue entry
that carries the batch attribute key. -/
theorem findMatch_mem (ent : SEntity) (a : String) :
    ∀ (q : List (SEntity × ℚ)) (needed : Int) (k i : Nat),
      i ∈ (findMatchIndices q ent (some a) needed k).1 →
      k ≤ i ∧ ∃ entry, q.get? (i - k) = some entry ∧ attrHasKey entry.1.attr a = true := by
  intro q
  induction q with
  | nil =>
    intro needed k i h
    simp [findMatchIndices] at h
  | cons p rest ih =>
    intro needed k i h
    obtain ⟨qe, qt⟩ := p
    simp only [findMatchIndices] at h
    by_cases hc : batchCond (some a) qe.attr ent.attr = true
    · have hkey : attrHasKey qe.attr a = true := by
        simp only [batchCond, Bool.and_eq_true] at hc
        exact hc.1.1
      rw [if_pos hc] at h
      by_cases hn : needed - 1 = 0
      · rw [if_pos hn] at h
        simp at h
        subst h
        exact ⟨Nat.le_refl _, ⟨(qe, qt), by simp, hkey⟩⟩
      · rw [if_neg hn] at h
        simp at h
        rcases h with h | h
        · subst h
          exact ⟨Nat.le_refl _, ⟨(qe, qt), by simp, hkey⟩⟩
        · obtain ⟨hki, entry, hget, hkey2⟩ := ih (needed - 1) (k + 1) i h
          refine ⟨by omega, entry, ?_, hkey2⟩
          have hik : i - k = (i - (k + 1)) + 1 := by omega
          rw [hik]
          simpa using hget
    · rw [if_neg hc] at h
      obtain ⟨hki, entry, hget, hkey2⟩ := ih needed (k + 1) i h
      refine ⟨by omega, entry, ?_, hkey2⟩
      have hik : i - k = (i - (k + 1)) + 1 := by omega
      rw [hik]
      simpa using hget

/-- C10: in ATTRIBUTE mode (with the spec-mandated batch_size of at least 2),
an arriving plain entity whose attr mapping lacks the batch_attr key matches
no queued waiter and is appended to the queue with an empty event list — even
when queued waiters also lack the key — and the scan never records a waiter
lacking the key, whatever entity arrives. -/
theorem batch_missing_attr_never_matches (m : BatchModule) (pe : PEntity) (t : ℚ) (a : String)
    (hA : m.batch_type = BatchType.ATTRIBUTE) (hb : m.batch_attr = some a)
    (hsz : 2 ≤ m.batch_size) (hk : attrHasKey pe.attr a = false) :
    BatchModule.ingest_entity m (SEntity.plain pe) t =
      Except.ok ({ m with queue := m.queue ++ [(SEntity.plain pe, t)] }, []) ∧
    (∀ ent2 needed i, i ∈ (findMatchIndices m.queue ent2 m.batch_attr needed 0).1 →
      ∃ entry, m.queue.get? i = some entry ∧ attrHasKey entry.1.attr a = true) := by
  constructor
  · have hk2 : attrHasKey (SEntity.plain pe).attr a = false := hk
    simp only [BatchModule.ingest_entity, SEntity.isBatch, hA, hb,
      findMatch_no_key (SEntity.plain pe) a hk2]
    have hne : ¬ (m.batch_size - 1 = 0) := by omega
    simp [hne]
  · intro ent2 needed i h
    rw [hb] at h
    obtain ⟨hki, entry, hget, hkey⟩ := findMatch_mem ent2 a m.queue needed 0 i h
    exact ⟨entry, by simpa using hget, hkey⟩

/-- C10 witness: the theorem applied to a concrete size-2 ATTRIBUTE batch
module whose queued waiter has the key while the arriving entity lacks it. -/
theorem batch_missing_attr_never_matches_witness :
    BatchModule.ingest_entity m10 (SEntity.plain pe10) 4 =
      Except.ok ({ m10 with queue := m10.queue ++ [(SEntity.plain pe10, 4)] }, []) :=
  (batch_missing_attr_never_matches m10 pe10 4 "k" rfl rfl (by decide) (by decide)).1

/-- Helper: membership through the ordered event-queue insert. -/
theorem mem_qInsert {x a : ℚ × Nat × Event} :
    ∀ {l : List (ℚ × Nat × Event)}, x ∈ qInsert l a → x ∈ l ∨ x = a := by
  intro l
  induction l with
  | nil =>
    intro h
    simp [qInsert] at h
    right
    exact h
  | cons b rest ih =>
    intro h
    simp only [qInsert] at h
    by_cases hc : qLt a b = true
    · rw [if_pos hc] at h
      rcases List.mem_cons.mp h with h1 | h1
      · right
        exact h1
      · left
        exact h1
    · rw [if_neg hc] at h
      rcases List.mem_cons.mp h with h1 | h1
      · left
        rw [h1]
        exact List.mem_cons_self b rest
      · rcases ih h1 with h2 | h2
        · left
          exact List.mem_cons_of_mem b h2
        · right
          exact h2

/-- Helper: pushing a list of events proceeds one event at a time. -/
theorem pushAll_cons (env : Env) (e : Event) (es : List Event) :
    Env.pushAll env (e :: es) = Env.pushAll (Env.add_event env e) es := rfl

/-- Helper: the attribute merge leaves the event queue untouched. -/
theorem applyUpd_event_queue (env : Env) (ind : Nat) (upd : SysAttrDict) :
    (Env.applyUpd env ind upd).event_queue = env.event_queue := by
  unfold Env.applyUpd
  split
  · rfl
  · split <;> rfl

/-- Helper: an element of the queue after pushing a list of events was queued
before or is one of the pushed events with its heap key. -/
theorem mem_pushAll {x : ℚ × Nat × Event} :
    ∀ (l : List Event) (env : Env), x ∈ (Env.pushAll env l).event_queue →
      x ∈ env.event_queue ∨ ∃ ev, ev ∈ l ∧ x = (ev.event_time, ev.event_entity.ind, ev) := by
  intro l
  induction l with
  | nil =>
    intro env h
    left
    simpa [Env.pushAll] using h
  | cons e es ih =>
    intro env h
    rw [pushAll_cons] at h
    rcases ih (Env.add_event env e) h with h1 | ⟨ev, hm, he⟩
    · simp only [Env.add_event] at h1
      rcases mem_qInsert h1 with h2 | h2
      · left
        exact h2
      · right
        exact ⟨e, List.mem_cons_self _ _, h2⟩
    · right
      exact ⟨ev, List.mem_cons_of_mem _ hm, he⟩

/-- C6: along the run loop, with a well-keyed queue (every stored tuple key
matches its event), a queue sorted by the heap order (time, entity_ind), and
handlers that never schedule events earlier than the handled event (the
engine's time-value streams are non-negative), two consecutively popped events
are non-decreasing in time, and the popped event precedes every queued event
with the same time whose entity index is higher. -/
theorem consecutive_pops_ordered (interp : Interp) (d : ℚ) (env env1 env2 : Env) (e1 e2 : Event)
    (hw : ∀ x ∈ env.event_queue, x.1 = x.2.2.event_time ∧ x.2.1 = x.2.2.event_entity.ind)
    (hs : env.event_queue.Pairwise qKeyLe)
    (hm : ∀ (hi : Handler) (e : Event), ∀ e3 ∈ (interp hi e).1, e.event_time ≤ e3.event_time)
    (h1 : stepSim interp d env = some (e1, env1))
    (h2 : stepSim interp d env1 = some (e2, env2)) :
    e1.event_time ≤ e2.event_time ∧
    (∀ x ∈ env.event_queue, e1.event_time < x.2.2.event_time ∨
      (e1.event_time = x.2.2.event_time ∧ e1.event_entity.ind ≤ x.2.2.event_entity.ind)) := by
  obtain ⟨q, sa⟩ := env
  cases q with
  | nil => simp [stepSim] at h1
  | cons x0 rest =>
    dsimp only at hw hs
    simp only [stepSim] at h1
    by_cases htime : x0.2.2.event_time ≤ d
    · rw [if_pos htime] at h1
      rw [Option.some.injEq, Prod.mk.injEq] at h1
      obtain ⟨he1, henv1⟩ := h1
      subst he1
      subst henv1
      constructor
      · cases hq1 : (Env.pushAll (Env.applyUpd { event_queue := rest, system_attr := sa }
            x0.2.2.event_entity.ind (interp x0.2.2.event_handler x0.2.2).2)
            (interp x0.2.2.event_handler x0.2.2).1).event_queue with
        | nil =>
          simp only [stepSim] at h2
          rw [hq1] at h2
          simp at h2
        | cons y0 rest2 =>
          simp only [stepSim] at h2
          rw [hq1] at h2
          dsimp only at h2
          by_cases htime2 : y0.2.2.event_time ≤ d
          · rw [if_pos htime2] at h2
            rw [Option.some.injEq, Prod.mk.injEq] at h2
            obtain ⟨he2, -⟩ := h2
            subst he2
            have hy : y0 ∈ (Env.pushAll (Env.applyUpd { event_queue := rest, system_attr := sa }
                x0.2.2.event_entity.ind (interp x0.2.2.event_handler x0.2.2).2)
                (interp x0.2.2.event_handler x0.2.2).1).event_queue := by
              rw [hq1]
              exact List.mem_cons_self _ _
            rcases mem_pushAll _ _ hy with hin | ⟨ev, hmem, heq⟩
            · rw [applyUpd_event_queue] at hin
              dsimp only at hin
              have hp := (List.pairwise_cons.mp hs).1 y0 hin
              have hwx := hw x0 (List.mem_cons_self _ _)
              have hwy := hw y0 (List.mem_cons_of_mem _ hin)
              simp only [qKeyLe] at hp
              rcases hp with hlt | ⟨heq2, -⟩
              · rw [← hwx.1, ← hwy.1]
                exact le_of_lt hlt
              · rw [← hwx.1, ← hwy.1, heq2]
            · subst heq
              exact hm x0.2.2.event_handler x0.2.2 ev hmem
          · rw [if_neg htime2] at h2
            simp at h2
      · intro x hx
        rcases List.mem_cons.mp hx with h | h
        · subst h
          right
          exact ⟨rfl, Nat.le_refl _⟩
        · have hp := (List.pairwise_cons.mp hs).1 x h
          have hwx := hw x0 (List.mem_cons_self _ _)
          have hwy := hw x (List.mem_cons_of_mem _ h)
          simp only [qKeyLe] at hp
          rcases hp with hlt | ⟨heq2, hle⟩
          · left
            rw [← hwx.1, ← hwy.1]
            exact hlt
          · right
            constructor
            · rw [← hwx.1, ← hwy.1]
              exact heq2
            · rw [← hwx.2, ← hwy.2]
              exact hle
    · rw [if_neg htime] at h1
      simp at h1

/-- C6 witness: two same-time events for entities 1 and 2, popped in entity
index order by two consecutive loop steps. -/
theorem consecutive_pops_ordered_witness :
    ev6a.event_time ≤ ev6b.event_time ∧
    (ev6a.event_time < ev6b.event_time ∨
      (ev6a.event_time = ev6b.event_time ∧ ev6a.event_entity.ind ≤ ev6b.event_entity.ind)) := by
  have h := consecutive_pops_ordered interp6 10 env6 env6b env6c ev6a ev6b
    (by decide) (by decide)
    (by intro hi e e3 he3; simp [interp6] at he3) rfl rfl
  exact ⟨h.1, h.2 (3, 2, ev6b) (by simp [env6])⟩

end Simux
